import Mathlib

/-!
Verification of the AliGn trace-alignment pipeline (batch_processing.py,
align_trace_data.py, tracelib/traces.py, the trigger and filter plugins)
against its natural-language specification.

Shallow embedding conventions:
* numeric samples and float-typed plugin parameters are rationals (`ℚ`);
  trace indices, marks and offsets are integers (`Int`);
* a Python `dict` of plugin parameters is an association list from the
  parameter name to its value; `params[name][0]` is `lookupP params name`,
  and a failed lookup is the `KeyError` the plugin re-raises;
* Python `None` inside an `xmarks` list is `Option.none`;
* exceptions are `Except PyErr`; `except KeyError` clauses match only
  `PyErr.keyError`, any other exception propagates.
-/

/-- Python exception kinds distinguished by the batch-processing code:
`except KeyError` handlers catch only `keyError`. -/
inductive PyErr where
  | keyError
  | typeError
deriving DecidableEq, Repr

/-- decidable equality of embedded call results, for concrete evaluation. -/
instance {ε α : Type _} [DecidableEq ε] [DecidableEq α] : DecidableEq (Except ε α)
  | .error e, .error f =>
    if h : e = f then .isTrue (by simp [h]) else .isFalse (by simp [h])
  | .error _, .ok _ => .isFalse (by simp)
  | .ok _, .error _ => .isFalse (by simp)
  | .ok a, .ok b =>
    if h : a = b then .isTrue (by simp [h]) else .isFalse (by simp [h])

/-- a value stored in a plugin parameter dict: a Python number (floats and
ints collapse to `ℚ`) or a Python bool (which is itself numeric in Python). -/
inductive PVal where
  | num (q : ℚ)
  | boolean (b : Bool)
deriving DecidableEq, Repr

/-- numeric reading of a parameter value; Python bools are the ints 0/1. -/
def PVal.toQ : PVal → ℚ
  | .num q => q
  | .boolean b => if b then 1 else 0

/-- integer reading of an int-typed parameter value. GUI `int` parameters
always hold integral values, on which `Rat.floor` is exact. -/
def PVal.toInt : PVal → Int
  | .num q => q.floor
  | .boolean b => if b then 1 else 0

/-- Python truthiness of a parameter value (`bool(x)`). -/
def PVal.truthy : PVal → Bool
  | .num q => decide (q ≠ 0)
  | .boolean b => b

/-- a plugin parameter dict (`trigger_parameter` / `filter_parameter`):
name ↦ value, where the value stands for `params[name][0]`. -/
abbrev Params := List (String × PVal)

/-- dict lookup `params[name][0]`; `none` is the raised `KeyError`. -/
def lookupP (p : Params) (name : String) : Option PVal :=
  match p with
  | [] => none
  | (k, v) :: rest => if k = name then some v else lookupP rest name

/-- clamp an int index the way a Python slice bound is clamped for a list of
length `n`: negative indices count from the end, then the result is clamped
into `[0, n]`. -/
def clampIdx (n : Nat) (i : Int) : Nat :=
  (min (max (if i < 0 then (n : Int) + i else i) 0) (n : Int)).toNat

/-- Python slice `l[a:b]` (step 1) for int bounds. -/
def pySlice (l : List ℚ) (a b : Int) : List ℚ :=
  (l.take (clampIdx l.length b)).drop (clampIdx l.length a)

/-- Python slice `l[a:]`. -/
def pySliceFrom (l : List ℚ) (a : Int) : List ℚ :=
  l.drop (clampIdx l.length a)

/-- Python indexing `l[i]` for the in-range indices the code reaches
(negative indices wrap once); out-of-range reads default to 0, a case the
embedded loops never hit. -/
def pyGet (l : List ℚ) (i : Int) : ℚ :=
  if 0 ≤ i then l.getD i.toNat 0 else l.getD (((l.length : Int) + i).toNat) 0

/-- index of the first `true`, or 0 when there is none: the behaviour of
`np.argmax` on a boolean array, as used by `matchRisingEdge`. -/
def argmaxBool (l : List Bool) : Nat :=
  match l.findIdx? id with
  | some i => i
  | none => 0

/-- tracelib/dsp.py `matchRisingEdge`: `x = np.argmax(trace[offset:] > threshold)`;
if `x != 0` the offset is added back, and 0 doubles as the not-found value. -/
def matchRisingEdge (trace : List ℚ) (offset : Int) (threshold : ℚ) : Int :=
  let x : Nat := argmaxBool ((pySliceFrom trace offset).map (fun v => decide (v > threshold)))
  if (x : Int) ≠ 0 then (x : Int) + offset else 0

/-- tracelib/dsp.py `matchFallingEdge`, the mirror image with `<`. -/
def matchFallingEdge (trace : List ℚ) (offset : Int) (threshold : ℚ) : Int :=
  let x : Nat := argmaxBool ((pySliceFrom trace offset).map (fun v => decide (v < threshold)))
  if (x : Int) ≠ 0 then (x : Int) + offset else 0

/-- loop body of tracelib/dsp.py `findFirstPeak`, with `fuel` the remaining
iteration count (`len trace - i`), carrying `hasPeak` and `peakPos`. -/
def ffpGo (trace : List ℚ) (minDist : Nat) (threshold : Option ℚ) (findMax : Bool) :
    Nat → Bool → Nat → Nat → Option (Nat × ℚ)
  | 0, hasPeak, peakPos, _ =>
    if hasPeak then some (peakPos, trace.getD peakPos 0) else none
  | fuel + 1, hasPeak, peakPos, i =>
    let ti := trace.getD i 0
    let tp := trace.getD peakPos 0
    if findMax ∧ ti > tp then
      if (match threshold with | none => true | some t => decide (ti ≥ t)) then
        ffpGo trace minDist threshold findMax fuel true i (i + 1)
      else
        ffpGo trace minDist threshold findMax fuel hasPeak peakPos (i + 1)
    else if (¬ findMax) ∧ ti < tp then
      if (match threshold with | none => true | some t => decide (ti ≤ t)) then
        ffpGo trace minDist threshold findMax fuel true i (i + 1)
      else
        ffpGo trace minDist threshold findMax fuel hasPeak peakPos (i + 1)
    else
      if hasPeak ∧ i - peakPos > minDist then
        some (peakPos, trace.getD peakPos 0)
      else
        ffpGo trace minDist threshold findMax fuel hasPeak peakPos (i + 1)

/-- tracelib/dsp.py `findFirstPeak(trace, minDist, threshold, findMax)`:
returns the position and value of the first peak, or `none`. -/
def findFirstPeak (trace : List ℚ) (minDist : Nat) (threshold : Option ℚ)
    (findMax : Bool) : Option (Nat × ℚ) :=
  ffpGo trace minDist threshold findMax trace.length false 0 0

/-- tracelib/dsp.py `findLastPeak`: `findFirstPeak` on the reversed trace,
with the position mapped back (`len - 1 - pos`). -/
def findLastPeak (trace : List ℚ) (minDist : Nat) (threshold : Option ℚ)
    (findMax : Bool) : Option (Nat × ℚ) :=
  match findFirstPeak trace.reverse minDist threshold findMax with
  | none => none
  | some (pos, v) => some (trace.length - 1 - pos, v)

/-- result of a trigger's `process_data`: the returned dict, `some xs` when it
holds the key `xmarks` with list `xs` (whose entries may be Python `None`),
`none` when the key is absent. -/
abbrev TriggerResult := Option (List (Option Int))

/-- trigger/edge_trigger.py `RisingEdgeTrigger.process_data`: reads
`threshold` (re-raising `KeyError`), runs `matchRisingEdge`, and appends the
match only when it is nonzero. A `None` offset (from a cascading predecessor)
is the `TypeError` Python would raise on slicing. -/
def risingEdgeProc (input : List ℚ) (offset : Option Int) (p : Params) :
    Except PyErr TriggerResult :=
  match lookupP p "threshold" with
  | none => .error .keyError
  | some tv =>
    match offset with
    | none => .error .typeError
    | some o =>
      let x := matchRisingEdge input o tv.toQ
      .ok (some (if x ≠ 0 then [some x] else []))

/-- trigger/edge_trigger.py `FallingEdgeTrigger.process_data`. -/
def fallingEdgeProc (input : List ℚ) (offset : Option Int) (p : Params) :
    Except PyErr TriggerResult :=
  match lookupP p "threshold" with
  | none => .error .keyError
  | some tv =>
    match offset with
    | none => .error .typeError
    | some o =>
      let x := matchFallingEdge input o tv.toQ
      .ok (some (if x ≠ 0 then [some x] else []))

/-- trigger/holdoff.py `HoldoffTrigger.process_data`: reads `holdoff` and
returns `[offset + holdoff]` when that lies inside the trace, else `[]`. -/
def holdoffProc (input : List ℚ) (offset : Option Int) (p : Params) :
    Except PyErr TriggerResult :=
  match lookupP p "holdoff" with
  | none => .error .keyError
  | some hv =>
    match offset with
    | none => .error .typeError
    | some o =>
      if o + hv.toInt < (input.length : Int) then
        .ok (some [some (o + hv.toInt)])
      else
        .ok (some [])

/-- trigger/find_peaks_trigger.py `FirstPeakFilter.process_data`: searches
`input_data[offset:]` with `findFirstPeak` (min distance 10, maximum search
iff the threshold is nonnegative); a found position gets the offset added. -/
def firstPeakProc (input : List ℚ) (offset : Option Int) (p : Params) :
    Except PyErr TriggerResult :=
  match lookupP p "threshold" with
  | none => .error .keyError
  | some tv =>
    match offset with
    | none => .error .typeError
    | some o =>
      match findFirstPeak (pySliceFrom input o) 10 (some tv.toQ) (decide (tv.toQ ≥ 0)) with
      | none => .ok (some [])
      | some (pos, _) => .ok (some [some ((pos : Int) + o)])

/-- trigger/find_peaks_trigger.py `LastPeakFilter.process_data`: like the
first-peak trigger but via `findLastPeak`, and the found position is appended
without adding the offset back (as in the source). -/
def lastPeakProc (input : List ℚ) (offset : Option Int) (p : Params) :
    Except PyErr TriggerResult :=
  match lookupP p "threshold" with
  | none => .error .keyError
  | some tv =>
    match offset with
    | none => .error .typeError
    | some o =>
      match findLastPeak (pySliceFrom input o) 10 (some tv.toQ) (decide (tv.toQ ≥ 0)) with
      | none => .ok (some [])
      | some (pos, _) => .ok (some [some (pos : Int)])

/-- loop of trigger/find_peaks_trigger.py `ThresholdTrigger.process_data`:
walks `i` from the offset, remembering the range start `p0` once the signal
passes `threshold + hysteresis` and closing the range when it falls to
`threshold - hysteresis`; a closed range shorter than `min_range` resets both
marks. `fuel` is the remaining iteration count `len - i`. -/
def ttGo (input : List ℚ) (threshold hysteresis minRange : ℚ) (inverse : Bool) :
    Nat → Int → Option Int × Option Int → Option Int × Option Int
  | 0, _, peaks => peaks
  | fuel + 1, i, (p0, p1) =>
    if ¬ inverse then
      match p0 with
      | none =>
        if pyGet input i ≥ threshold + hysteresis then
          ttGo input threshold hysteresis minRange inverse fuel (i + 1) (some i, p1)
        else
          ttGo input threshold hysteresis minRange inverse fuel (i + 1) (none, p1)
      | some p =>
        if pyGet input i ≤ threshold - hysteresis then
          if ((i - p : Int) : ℚ) ≥ minRange then (some p, some i)
          else ttGo input threshold hysteresis minRange inverse fuel (i + 1) (none, none)
        else
          ttGo input threshold hysteresis minRange inverse fuel (i + 1) (some p, p1)
    else
      match p0 with
      | none =>
        if pyGet input i ≤ threshold - hysteresis then
          ttGo input threshold hysteresis minRange inverse fuel (i + 1) (some i, p1)
        else
          ttGo input threshold hysteresis minRange inverse fuel (i + 1) (none, p1)
      | some p =>
        if pyGet input i ≥ threshold + hysteresis then
          if ((i - p : Int) : ℚ) ≥ minRange then (some p, some i)
          else ttGo input threshold hysteresis minRange inverse fuel (i + 1) (none, none)
        else
          ttGo input threshold hysteresis minRange inverse fuel (i + 1) (some p, p1)

/-- trigger/find_peaks_trigger.py `ThresholdTrigger.process_data`: runs the
range search and, if either mark is still `None`, resets `peaks` to
`[None, None]` — so the returned `xmarks` is always a two-element list. -/
def thresholdTriggerProc (input : List ℚ) (offset : Option Int) (p : Params) :
    Except PyErr TriggerResult :=
  match lookupP p "threshold", lookupP p "hysteresis", lookupP p "min_range",
      lookupP p "inverse" with
  | some tv, some hv, some mv, some iv =>
    match offset with
    | none => .error .typeError
    | some o =>
      let fuel := ((input.length : Int) - o).toNat
      let peaks := ttGo input tv.toQ hv.toQ mv.toQ iv.truthy fuel o (none, none)
      if peaks.1 = none ∨ peaks.2 = none then
        .ok (some [none, none])
      else
        .ok (some [peaks.1, peaks.2])
  | _, _, _, _ => .error .keyError

/-- one stage of the user-configured trigger chain: its parameter dict plus
its `process_data` implementation. -/
structure TriggerStage where
  params : Params
  proc : List ℚ → Option Int → Params → Except PyErr TriggerResult

/-- result of a filter's `process_data`: `some d` when the returned dict holds
the key `data` with samples `d`, `none` when the key is absent. -/
abbrev FilterResult := Option (List ℚ)

/-- filter/moving_average_filter.py `_moving_average`: `np.convolve` of the
data with a box of `window_len` ones divided by `window_len`, mode `valid`
(output element `i` is the average of `data[i .. i+w-1]`). -/
def movingAverage (data : List ℚ) (w : Nat) : List ℚ :=
  if w = 0 ∨ data.length + 1 < w then []
  else
    (List.range (data.length + 1 - w)).map
      (fun i => (((data.drop i).take w).foldl (· + ·) 0) / (w : ℚ))

/-- filter/moving_average_filter.py `MovingAverageFilter.process_data`: reads
`enabled` and `window_len` (re-raising `KeyError` when either is missing),
averages when `window_len > 0 and enabled`, else passes the data through. -/
def movingAverageProc (input : List ℚ) (p : Params) : Except PyErr FilterResult :=
  match lookupP p "enabled" with
  | none => .error .keyError
  | some ev =>
    match lookupP p "window_len" with
    | none => .error .keyError
    | some wv =>
      if wv.toQ > 0 ∧ ev.truthy then
        .ok (some (movingAverage input wv.toInt.toNat))
      else
        .ok (some input)

/-- one stage of the user-configured filter chain: its parameter dict (the
`filter_parameter[1]` settings, including an optional `modify_data` entry)
plus its `process_data` implementation. -/
structure FilterStage where
  params : Params
  proc : List ℚ → Params → Except PyErr FilterResult

/-- loop of batch_processing.py `BatchProcessingThread._run_triggers`:
`xmarks` starts as `None`; each stage's `process_data` and the `['xmarks']`
lookup run inside `try/except KeyError` whose handler breaks the chain
keeping the previous `xmarks`; an empty `xmarks` breaks the chain; otherwise
`xmarks[0]` becomes the next stage's offset (cascading). Exceptions other
than `KeyError` propagate. -/
def runTriggersGo (input : List ℚ) :
    List TriggerStage → Option (List (Option Int)) → Option Int →
    Except PyErr (Option (List (Option Int)))
  | [], xmarks, _ => .ok xmarks
  | st :: rest, xmarks, offset =>
    match st.proc input offset st.params with
    | .error .keyError => .ok xmarks
    | .error e => .error e
    | .ok none => .ok xmarks
    | .ok (some xs) =>
      if xs = [] then .ok (some [])
      else runTriggersGo input rest (some xs) (xs.headD none)

/-- batch_processing.py `BatchProcessingThread._run_triggers` with the
initial `current_offset = 0`. -/
def runTriggers (stages : List TriggerStage) (input : List ℚ) :
    Except PyErr (Option (List (Option Int))) :=
  runTriggersGo input stages none (some 0)

/-- loop of batch_processing.py `BatchProcessingThread._run_filters`:
a stage whose settings hold `modify_data = true` is skipped for the scan
(its result is `dict(data=temp_trace_data, xmarks=None)`); otherwise
`process_data` runs OUTSIDE any `try`, so a `KeyError` it raises propagates
and aborts the run; only the `filter_result['data']` lookup is guarded, and
a result without `data` is logged and skipped leaving the data unchanged.
`modify_data` is overwritten by every stage that declares the key. -/
def runFiltersGo (input : List ℚ) :
    List FilterStage → Option Bool → Except PyErr (Option Bool × List ℚ)
  | [], modifyData => .ok (modifyData, input)
  | st :: rest, modifyData =>
    match lookupP st.params "modify_data" with
    | some v =>
      if v.truthy then
        runFiltersGo input rest (some true)
      else
        match st.proc input st.params with
        | .error e => .error e
        | .ok (some d) => runFiltersGo d rest (some false)
        | .ok none => runFiltersGo input rest (some false)
    | none =>
      match st.proc input st.params with
      | .error e => .error e
      | .ok (some d) => runFiltersGo d rest modifyData
      | .ok none => runFiltersGo input rest modifyData

/-- batch_processing.py `BatchProcessingThread._run_filters` with the initial
`modify_data = None`. -/
def runFilters (stages : List FilterStage) (input : List ℚ) :
    Except PyErr (Option Bool × List ℚ) :=
  runFiltersGo input stages none

/-- per-trace outcome of the Scanning phase: the entry written into
`valid_traces_array`, the row written into `peak_array` (rows of invalid
traces keep their initial zeros), and the — possibly overwritten —
`region_around_peak`. -/
structure ScanOut where
  valid : Bool
  peaks : Int × Int
  region : Int × Int
deriving DecidableEq, Repr

/-- classification block of batch_processing.py
`BatchProcessingThread.run_filters_and_triggers` (lines 186-219): one
non-`None` mark is valid iff the region around it stays inside the filtered
buffer, storing `(m, m)`; two non-`None` marks likewise, storing `(m1, m2)`;
any other `xmarks` is invalid; and when `xmarks` is `None` (no trigger ran or
the first trigger failed) but `modify_data` is truthy, the trace is valid
with zero anchors and `region_around_peak` is overwritten in place to
`[0, len(temp_trace_data)]`. -/
def classify (xmarks : Option (List (Option Int))) (modifyData : Option Bool)
    (bufLen : Nat) (region : Int × Int) : ScanOut :=
  match xmarks with
  | some xs =>
    match xs with
    | [some m] =>
      if m + region.2 > (bufLen : Int) ∨ m + region.1 < 0 then
        ⟨false, (0, 0), region⟩
      else
        ⟨true, (m, m), region⟩
    | [some m1, some m2] =>
      if m2 + region.2 > (bufLen : Int) ∨ m1 + region.1 < 0 then
        ⟨false, (0, 0), region⟩
      else
        ⟨true, (m1, m2), region⟩
    | _ => ⟨false, (0, 0), region⟩
  | none =>
    if modifyData = some true then
      ⟨true, (0, 0), (0, (bufLen : Int))⟩
    else
      ⟨false, (0, 0), region⟩

/-- batch_processing.py `BatchProcessingThread.run_filters_and_triggers` for
one trace: run the filter chain when it is nonempty (a raised `KeyError`
propagates), run the trigger chain when it is nonempty from offset 0, then
classify against the current `region_around_peak`. -/
def scanStep (fs : List FilterStage) (ts : List TriggerStage)
    (trace : List ℚ) (region : Int × Int) : Except PyErr ScanOut :=
  match (if fs.isEmpty then .ok (none, trace) else runFilters fs trace) with
  | .error e => .error e
  | .ok (modifyData, buf) =>
    match (if ts.isEmpty then .ok none else runTriggers ts buf) with
    | .error e => .error e
    | .ok xmarks => .ok (classify xmarks modifyData buf.length region)

/-- Scanning loop of batch_processing.py `BatchProcessingThread.run`: one
`run_filters_and_triggers` call per trace in order, threading the shared
(mutated in place) `region_around_peak`; returns the rows of
`valid_traces_array`/`peak_array` and the final region. -/
def scanLoop (fs : List FilterStage) (ts : List TriggerStage) :
    List (List ℚ) → Int × Int →
    Except PyErr (List (Bool × (Int × Int)) × (Int × Int))
  | [], region => .ok ([], region)
  | trace :: rest, region =>
    match scanStep fs ts trace region with
    | .error e => .error e
    | .ok s =>
      match scanLoop fs ts rest s.region with
      | .error e => .error e
      | .ok (rows, rfin) => .ok ((s.valid, s.peaks) :: rows, rfin)

/-- the ComputingCutGeometry expression of batch_processing.py line 109-111:
`int(np.diff(self.peak_array)[0].max() + np.diff(self.region_around_peak)[0])`.
`np.diff(peak_array)` is the per-row anchor difference, indexing `[0]` takes
the ROW OF TRACE 0, and `.max()` of that one-element row is just that
difference — so only trace 0 contributes. -/
def newTraceLengthCode (peakArr : List (Int × Int)) (region : Int × Int) : Int :=
  ((peakArr.headD (0, 0)).2 - (peakArr.headD (0, 0)).1) + (region.2 - region.1)

/-- Modelled from the spec: `new_length = max_over_valid_traces(anchor2 -
anchor1) + (region_end - region_start)` — the uniform output length the spec
(and the comment above the source line) prescribes, to be compared with
`newTraceLengthCode`. -/
def newTraceLengthSpec (rows : List (Bool × (Int × Int))) (region : Int × Int) : Int :=
  ((rows.filterMap (fun r => if r.1 then some (r.2.2 - r.2.1) else none)).foldl
    max 0) + (region.2 - region.1)

/-- the slice-and-pad step of batch_processing.py
`BatchProcessingThread.cut_and_modify_traces`: `cutted = trace[start:end]`
with `end = start + L`; when the slice is shorter than `L` (the end lies
beyond the physical trace) it is copied and `np.ndarray.resize`-extended with
zeros to exactly `L`. -/
def cutTrace (trace : List ℚ) (start : Int) (L : Nat) : List ℚ :=
  let c := pySlice trace start (start + (L : Int))
  if c.length < L then c ++ List.replicate (L - c.length) 0 else c

/-- batch_processing.py `BatchProcessingThread._run_modifying_filter`: every
stage whose settings declare a truthy `modify_data` is run on the cut trace;
`process_data` and the `filter_result['data']` lookup are unguarded here, so
a `KeyError` (missing parameter, or missing `data` key) propagates. -/
def runModifyingFilter : List FilterStage → List ℚ → Except PyErr (List ℚ)
  | [], data => .ok data
  | st :: rest, data =>
    match lookupP st.params "modify_data" with
    | some v =>
      if v.truthy then
        match st.proc data st.params with
        | .error e => .error e
        | .ok none => .error .keyError
        | .ok (some d) => runModifyingFilter rest d
      else
        runModifyingFilter rest data
    | none => runModifyingFilter rest data

/-- Cutting loop of batch_processing.py `BatchProcessingThread.run` /
`cut_and_modify_traces`, for one signal channel: each valid trace is cut from
`start = peak_array[tracenr, 0] + region_around_peak[0]`, padded to the
uniform length, passed through the modify-flagged filters and collected in
order (the source's elementwise dtype cast is length-preserving and omitted);
invalid traces are skipped. -/
def cutPhase (fs : List FilterStage) :
    List (List ℚ) → List (Bool × (Int × Int)) → Int × Int → Nat →
    Except PyErr (List (List ℚ))
  | [], _, _, _ => .ok []
  | _ :: _, [], _, _ => .ok []
  | trace :: trs, row :: rws, region, L =>
    if row.1 then
      match runModifyingFilter fs (cutTrace trace (row.2.1 + region.1) L) with
      | .error e => .error e
      | .ok cutted =>
        match cutPhase fs trs rws region L with
        | .error e => .error e
        | .ok rest => .ok (cutted :: rest)
    else
      cutPhase fs trs rws region L

/-- batch_processing.py `BatchProcessingThread.run` for one signal channel:
Scanning over all traces, then the ComputingCutGeometry length, then the
Cutting loop — geometry and cuts both read the final (possibly overwritten)
`region_around_peak` left by the scan. -/
def batchRun (fs : List FilterStage) (ts : List TriggerStage)
    (traces : List (List ℚ)) (region : Int × Int) :
    Except PyErr (List (List ℚ)) :=
  match scanLoop fs ts traces region with
  | .error e => .error e
  | .ok (rows, rfin) =>
    cutPhase fs traces rows rfin (newTraceLengthCode (rows.map Prod.snd) rfin).toNat

/-- a channel's backing 2-D array in the npy backend: the rows of
`self._npy_mm[name]`, `none` for rows never assigned (fresh `np.ndarray`
memory). -/
abbrev NpyChannel := List (Option (List ℚ))

/-- state of align_trace_data.py `NumpyArrays` that `add_trace` touches: the
declared trace count, the single `_records_written` counter shared by every
channel, and the registered channel arrays. -/
structure NumpyArraysState where
  numberOfTraces : Nat
  recordsWritten : Nat
  channels : List (String × NpyChannel)
deriving DecidableEq, Repr

/-- update the named channel in place (the channel is registered in every
execution the claims reach; an unregistered name leaves the state unchanged
where Python would raise). -/
def setChannelRow (chs : List (String × NpyChannel)) (name : String) (i : Nat)
    (row : List ℚ) : List (String × NpyChannel) :=
  match chs with
  | [] => []
  | (k, c) :: rest =>
    if k = name then (k, c.set i (some row)) :: rest
    else (k, c) :: setChannelRow rest name i row

/-- read a registered channel's rows. -/
def getChannel (s : NumpyArraysState) (name : String) : NpyChannel :=
  match s.channels.lookup name with
  | some c => c
  | none => []

/-- align_trace_data.py `NumpyArrays.register_data_file`: allocates a fresh
`(number_of_traces, length)` array for the channel (row contents start
unassigned). -/
def registerDataFile (s : NumpyArraysState) (name : String) : NumpyArraysState :=
  { s with channels := (name, List.replicate s.numberOfTraces none) :: s.channels }

/-- align_trace_data.py `NumpyArrays.add_trace`: when the SHARED
`_records_written` counter has reached `number_of_traces` the trace is
dropped with a warning (no exception); otherwise the row at index
`_records_written` of the TARGET channel is assigned and the shared counter
incremented. -/
def addTrace (s : NumpyArraysState) (call : String × List ℚ) : NumpyArraysState :=
  if s.recordsWritten ≥ s.numberOfTraces then s
  else
    { s with
      channels := setChannelRow s.channels call.1 s.recordsWritten call.2
      recordsWritten := s.recordsWritten + 1 }

/-- the write-capacity guard of `NumpyArrays.add_trace`: the next call stores
its row iff this holds. -/
def addTraceStores (s : NumpyArraysState) : Prop :=
  s.recordsWritten < s.numberOfTraces

instance (s : NumpyArraysState) : Decidable (addTraceStores s) :=
  inferInstanceAs (Decidable (_ < _))

/-- a sequence of `add_trace` calls (channel name, row), applied in order. -/
def applyCalls (s : NumpyArraysState) (calls : List (String × List ℚ)) :
    NumpyArraysState :=
  calls.foldl addTrace s

/-- a fresh dataset as the batch thread makes it: `prepare_new_tracedata`
then `set_number_of_traces n`, no channels yet. -/
def freshNpy (n : Nat) : NumpyArraysState := ⟨n, 0, []⟩

/-- save method of a tracelib/traces.py `DataObject` prepared for record. -/
inductive SaveMethod where
  | directwrite
  | memmap
deriving DecidableEq, Repr

/-- state of tracelib/traces.py `DataObject` during recording: declared
per-trace length (in samples; the byte check `len(data) ==
length * dtype.itemsize` is equivalent), declared trace count, save method,
the sequentially written file (DIRECTWRITE), the pre-sized array (MEMMAP)
and the PER-OBJECT `_recordsWritten` counter. -/
structure DataObjectState where
  length : Nat
  nrTraces : Nat
  saveMethod : SaveMethod
  fileRows : List (List ℚ)
  memRows : List (Option (List ℚ))
  recordsWritten : Nat
deriving DecidableEq, Repr

/-- tracelib/traces.py `DataObject._addTraceRaw`: a length-mismatched trace
is dropped with a warning; DIRECTWRITE appends to the file WITHOUT any
capacity check; MEMMAP drops the trace once `_recordsWritten` reaches
`nrTraces`, else assigns row `_recordsWritten`; a stored trace bumps the
counter. -/
def addTraceRaw (o : DataObjectState) (row : List ℚ) : DataObjectState :=
  if row.length ≠ o.length then o
  else
    match o.saveMethod with
    | .directwrite =>
      { o with fileRows := o.fileRows ++ [row], recordsWritten := o.recordsWritten + 1 }
    | .memmap =>
      if o.recordsWritten ≥ o.nrTraces then o
      else
        { o with
          memRows := o.memRows.set o.recordsWritten (some row)
          recordsWritten := o.recordsWritten + 1 }

/-- tracelib/traces.py `DataObject.prepareForRecord` (as reached through the
`register*File` methods, whose `saveMethod` defaults to DIRECTWRITE). -/
def prepareForRecord (nrTraces length : Nat) (m : SaveMethod) : DataObjectState :=
  ⟨length, nrTraces, m, [], List.replicate nrTraces none, 0⟩

/-- the argument shapes `AlignTraceDataFactory.open_trace_data` receives: a
string (or `Path`) file name, a dict of channel ↦ file mappings, or anything
else. -/
inductive TraceDataArg where
  | strPath (s : String)
  | dictArg (files : List (String × String))
  | other
deriving DecidableEq, Repr

/-- what a call to `open_trace_data` does: return a `D15TraceData`, return a
`NumpyArrays`, fall off the end returning Python `None`, or raise
`ValueError`. -/
inductive OpenResult where
  | d15 (metafile : String)
  | npyArrays (files : List (String × String))
  | noneReturn
  | valueError
deriving DecidableEq, Repr

/-- extension part of Python `os.path.splitext`: the suffix from the last dot
of the basename, empty when there is no dot or only leading dots. -/
def splitextExtGo (acc ext : List Char) (seenNonDot : Bool) : List Char → List Char
  | [] => ext
  | c :: rest =>
    if c = '.' then
      if seenNonDot then splitextExtGo (acc ++ [c]) (c :: rest) seenNonDot rest
      else splitextExtGo (acc ++ [c]) ext seenNonDot rest
    else if c = '/' then
      splitextExtGo (acc ++ [c]) [] false rest
    else
      splitextExtGo (acc ++ [c]) (if ext = [] then [] else ext) true rest

/-- Python `os.path.splitext(s)[1]`. -/
def splitextExt (s : String) : String :=
  String.mk (splitextExtGo [] [] false s.toList)

/-- align_trace_data.py `AlignTraceDataFactory.open_trace_data`: a string
path opens a `D15TraceData` when its extension is `.meta` — and otherwise
falls off the `if` chain, implicitly returning `None`; a dict opens a
`NumpyArrays`; only a non-string, non-dict argument reaches the
`raise ValueError`. -/
def openTraceData : TraceDataArg → OpenResult
  | .strPath s => if splitextExt s = ".meta" then .d15 s else .noneReturn
  | .dictArg files => .npyArrays files
  | .other => .valueError

/-! Helper lemmas. -/

theorem clampIdx_le (n : Nat) (i : Int) : clampIdx n i ≤ n := by
  unfold clampIdx
  rcases le_total ((if i < 0 then (n : Int) + i else i)) 0 with h | h <;>
    simp [min_def, max_def] <;> split_ifs <;> omega

theorem clampIdx_add_le (n : Nat) (a : Int) (L : Nat) :
    clampIdx n (a + (L : Int)) ≤ clampIdx n a + L := by
  unfold clampIdx
  simp only [min_def, max_def]
  split_ifs <;> omega

theorem pySlice_window_length_le (l : List ℚ) (a : Int) (L : Nat) :
    (pySlice l a (a + (L : Int))).length ≤ L := by
  unfold pySlice
  simp only [List.length_drop, List.length_take]
  have h1 := clampIdx_add_le l.length a L
  have h2 := clampIdx_le l.length (a + (L : Int))
  omega

theorem cutTrace_length (trace : List ℚ) (start : Int) (L : Nat) :
    (cutTrace trace start L).length = L := by
  unfold cutTrace
  have h := pySlice_window_length_le trace start L
  dsimp only
  split_ifs with hlt
  · simp only [List.length_append, List.length_replicate]
    omega
  · omega

/-- the filter's own `process_data`, on the stage's own parameters, never
changes the number of samples. -/
def StagePreservesLength (st : FilterStage) : Prop :=
  ∀ (d r : List ℚ), st.proc d st.params = .ok (some r) → r.length = d.length

/-- only the MODIFY-FLAGGED stages of a chain — the ones
`_run_modifying_filter` actually runs on the cut trace — preserve sample
count; analysis-only stages (no truthy `modify_data` in their settings, e.g.
an enabled moving-average filter) are unconstrained, since the cut phase
skips them. This holds for the repo's chains: the only filters declaring
`modify_data` are the IIR `filtfilt` bandpass/highpass/notch, which preserve
length. -/
def ModifyStagesPreserveLength (fs : List FilterStage) : Prop :=
  ∀ st ∈ fs, ∀ v, lookupP st.params "modify_data" = some v → v.truthy = true →
    StagePreservesLength st

theorem runModifyingFilter_length (fs : List FilterStage) (d out : List ℚ)
    (hpres : ModifyStagesPreserveLength fs)
    (h : runModifyingFilter fs d = .ok out) : out.length = d.length := by
  induction fs generalizing d with
  | nil =>
    simp only [runModifyingFilter] at h
    cases h
    rfl
  | cons st rest ih =>
    simp only [runModifyingFilter] at h
    have hrest : ModifyStagesPreserveLength rest :=
      fun s hs v hv ht => hpres s (List.mem_cons_of_mem _ hs) v hv ht
    rcases hmd : lookupP st.params "modify_data" with _ | v <;> simp only [hmd] at h
    · exact ih d hrest h
    · by_cases htr : v.truthy = true
      · rw [if_pos htr] at h
        rcases hproc : st.proc d st.params with e | fr <;> rw [hproc] at h
        · cases h
        · rcases fr with _ | d'
          · cases h
          · have hlen := hpres st (List.mem_cons_self _ _) v hmd htr d d' hproc
            have := ih d' hrest h
            omega
      · rw [if_neg htr] at h
        exact ih d hrest h

theorem runTriggersGo_no_keyError (input : List ℚ) (ts : List TriggerStage)
    (xm : Option (List (Option Int))) (off : Option Int) :
    runTriggersGo input ts xm off ≠ .error .keyError := by
  induction ts generalizing xm off with
  | nil => simp [runTriggersGo]
  | cons st rest ih =>
    simp only [runTriggersGo]
    rcases st.proc input off st.params with e | fr
    · cases e <;> simp
    · rcases fr with _ | xs
      · simp
      · dsimp only
        split_ifs
        · simp
        · exact ih _ _

/-! Concrete chain stages used by the witnesses and counterexamples. -/

/-- a `ThresholdTrigger` stage with threshold 1, hysteresis 0, minimum range
2 and no inversion. -/
def ttStage : TriggerStage :=
  ⟨[("threshold", .num 1), ("hysteresis", .num 0), ("min_range", .num 2),
    ("inverse", .boolean false)], thresholdTriggerProc⟩

/-- the `ThresholdTrigger` default parameters from its `_trigger_options`
(threshold 1.0, hysteresis 0.0, min_range 500, inverse False). -/
def ttDefaultParams : Params :=
  [("threshold", .num 1), ("hysteresis", .num 0), ("min_range", .num 500),
   ("inverse", .boolean false)]

/-- a `MovingAverageFilter` stage flagged `modify_data = True`. -/
def maModStage : FilterStage :=
  ⟨[("enabled", .boolean true), ("modify_data", .boolean true),
    ("window_len", .num 2)], movingAverageProc⟩

/-- a disabled `MovingAverageFilter` stage flagged `modify_data = True`
(`enabled = False` makes `process_data` pass the data through). -/
def maDisabledModStage : FilterStage :=
  ⟨[("modify_data", .boolean true), ("enabled", .boolean false),
    ("window_len", .num 3)], movingAverageProc⟩

/-- a `MovingAverageFilter` stage whose parameter dict is missing the
declared `window_len` parameter. -/
def maStageNoWin : FilterStage :=
  ⟨[("enabled", .boolean true)], movingAverageProc⟩

/-- a `HoldoffTrigger` stage with holdoff 10. -/
def holdoffStage10 : TriggerStage :=
  ⟨[("holdoff", .num 10)], holdoffProc⟩

/-! Claims. -/

/-- C5: a trace whose trigger chain returns exactly one mark `m` with
`m + region_start ≥ 0` and `m + region_end ≤ trace length` is classified
valid with `(m, m)` stored as its cut anchor pair (and the region is left
unchanged). -/
theorem claim_C5_one_mark_valid (m : Int) (md : Option Bool) (L : Nat)
    (r : Int × Int) (h1 : m + r.2 ≤ (L : Int)) (h2 : 0 ≤ m + r.1) :
    classify (some [some m]) md L r = ⟨true, (m, m), r⟩ := by
  unfold classify
  have hcond : ¬ (m + r.2 > (L : Int) ∨ m + r.1 < 0) := by omega
  dsimp only
  rw [if_neg hcond]

/-- witness for C5 at `m = 2`, buffer length 5, region `(-1, 2)`. -/
theorem claim_C5_witness :
    classify (some [some 2]) none 5 (-1, 2) = ⟨true, (2, 2), (-1, 2)⟩ :=
  claim_C5_one_mark_valid 2 none 5 (-1, 2) (by decide) (by decide)

/-- C3 counterexample: the trigger chain RUNS and produces zero marks
(`xmarks = []`, here from a holdoff trigger falling past the trace end) while
a modifying filter (`modify_data = True`) is configured — yet the trace is
classified INVALID and the cut region `(-1, 1)` is left unchanged, contrary
to the claim that zero marks plus a modifying filter yield a valid whole-
trace cut. -/
theorem claim_C3_counterexample :
    scanStep [maModStage] [holdoffStage10] [1, 2, 3] (-1, 1) =
      .ok ⟨false, (0, 0), (-1, 1)⟩ := by decide

/-- C3 amended: the whole-trace fallback fires only when the trigger result
is absent (`xmarks is None`): the trigger chain is empty, or it never
produced marks (e.g. its first trigger raised a missing-parameter error).
In that case, with the filter chain's `modify_data` outcome true, the trace
is valid with zero anchors and the cut region is overridden to
`[0, length of the filtered buffer]`. -/
theorem claim_C3_amended (fs : List FilterStage) (ts : List TriggerStage)
    (trace buf : List ℚ) (r : Int × Int)
    (hf : runFilters fs trace = .ok (some true, buf))
    (ht : ts = [] ∨ runTriggers ts buf = .ok none) :
    scanStep fs ts trace r = .ok ⟨true, (0, 0), (0, (buf.length : Int))⟩ := by
  cases fs with
  | nil => simp [runFilters, runFiltersGo] at hf
  | cons st rest =>
    rcases ht with rfl | ht
    · unfold scanStep
      simp only [List.isEmpty_cons, List.isEmpty_nil, Bool.false_eq_true, if_false, if_true]
      rw [show runFilters (st :: rest) trace = .ok (some true, buf) from hf]
      simp [classify]
    · cases ts with
      | nil =>
        unfold scanStep
        simp only [List.isEmpty_cons, List.isEmpty_nil, Bool.false_eq_true, if_false, if_true]
        rw [show runFilters (st :: rest) trace = .ok (some true, buf) from hf]
        simp [classify]
      | cons t trest =>
        unfold scanStep
        simp only [List.isEmpty_cons, Bool.false_eq_true, if_false]
        rw [show runFilters (st :: rest) trace = .ok (some true, buf) from hf]
        dsimp only
        rw [ht]
        simp [classify]

/-- witness for C3 amended: one modify-flagged moving-average filter, no
triggers, trace `[1, 2, 3]`, configured region `(-1, 1)` — the trace is
valid and the region becomes `(0, 3)`. -/
theorem claim_C3_amended_witness :
    scanStep [maModStage] [] [1, 2, 3] (-1, 1) = .ok ⟨true, (0, 0), (0, 3)⟩ :=
  claim_C3_amended [maModStage] [] [1, 2, 3] [1, 2, 3] (-1, 1) (by decide)
    (Or.inl rfl)

/-- C1: the ComputingCutGeometry length. The source line
`np.diff(self.peak_array)[0].max()` indexes ROW 0 of the per-trace anchor
differences, so `new_length` is trace 0's anchor span plus the region span —
NOT the maximum over all valid traces that the spec (and the comment right
above the line) prescribe. Concretely: a threshold trigger gives trace 0 the
anchors (0, 2) and trace 1 the anchors (0, 4), both valid with region
`(0, 0)`; the code computes 2 where the claimed maximum is 4. -/
theorem claim_C1_code_bug :
    scanLoop [] [ttStage] [[2, 2, 0], [2, 2, 2, 2, 0]] (0, 0) =
      .ok ([(true, (0, 2)), (true, (0, 4))], (0, 0))
    ∧ newTraceLengthCode [(0, 2), (0, 4)] (0, 0) = 2
    ∧ newTraceLengthSpec [(true, (0, 2)), (true, (0, 4))] (0, 0) = 4
    ∧ (2 : Int) ≠ 4 := by
  refine ⟨by with_unfolding_all rfl, by decide, by decide, by decide⟩

/-- C8: `open_trace_data` on a string path whose extension is not `.meta`
(here `"traces.npy"`) falls off the `if` chain and implicitly returns
`None` — it does NOT raise the `ValueError` its docstring and the claim
promise; only a non-string, non-dict argument reaches the `raise`. -/
theorem claim_C8_code_bug :
    openTraceData (.strPath "traces.npy") = .noneReturn
    ∧ OpenResult.noneReturn ≠ OpenResult.valueError
    ∧ openTraceData .other = .valueError := by
  refine ⟨by decide, by decide, by decide⟩

/-! Helper lemmas for C4: every loaded trigger other than `ThresholdTrigger`
returns an `xmarks` list free of `None` placeholders. -/

theorem risingEdge_marks_not_none (input : List ℚ) (o : Option Int) (p : Params)
    (xs : List (Option Int)) (h : risingEdgeProc input o p = .ok (some xs)) :
    ∀ x ∈ xs, x ≠ none := by
  unfold risingEdgeProc at h
  cases hthr : lookupP p "threshold" with
  | none => rw [hthr] at h; cases h
  | some tv =>
    rw [hthr] at h
    cases o with
    | none => cases h
    | some o =>
      dsimp only at h
      split_ifs at h <;> cases h <;> simp

theorem fallingEdge_marks_not_none (input : List ℚ) (o : Option Int) (p : Params)
    (xs : List (Option Int)) (h : fallingEdgeProc input o p = .ok (some xs)) :
    ∀ x ∈ xs, x ≠ none := by
  unfold fallingEdgeProc at h
  cases hthr : lookupP p "threshold" with
  | none => rw [hthr] at h; cases h
  | some tv =>
    rw [hthr] at h
    cases o with
    | none => cases h
    | some o =>
      dsimp only at h
      split_ifs at h <;> cases h <;> simp

theorem holdoff_marks_not_none (input : List ℚ) (o : Option Int) (p : Params)
    (xs : List (Option Int)) (h : holdoffProc input o p = .ok (some xs)) :
    ∀ x ∈ xs, x ≠ none := by
  unfold holdoffProc at h
  cases hhv : lookupP p "holdoff" with
  | none => rw [hhv] at h; cases h
  | some hv =>
    rw [hhv] at h
    cases o with
    | none => cases h
    | some o =>
      dsimp only at h
      split_ifs at h <;> cases h <;> simp

theorem firstPeak_marks_not_none (input : List ℚ) (o : Option Int) (p : Params)
    (xs : List (Option Int)) (h : firstPeakProc input o p = .ok (some xs)) :
    ∀ x ∈ xs, x ≠ none := by
  unfold firstPeakProc at h
  cases hthr : lookupP p "threshold" with
  | none => rw [hthr] at h; cases h
  | some tv =>
    rw [hthr] at h
    cases o with
    | none => cases h
    | some o =>
      dsimp only at h
      cases hfp : findFirstPeak (pySliceFrom input o) 10 (some tv.toQ)
          (decide (tv.toQ ≥ 0)) with
      | none => rw [hfp] at h; cases h; simp
      | some pv =>
        obtain ⟨pos, v⟩ := pv
        rw [hfp] at h
        cases h
        simp

theorem lastPeak_marks_not_none (input : List ℚ) (o : Option Int) (p : Params)
    (xs : List (Option Int)) (h : lastPeakProc input o p = .ok (some xs)) :
    ∀ x ∈ xs, x ≠ none := by
  unfold lastPeakProc at h
  cases hthr : lookupP p "threshold" with
  | none => rw [hthr] at h; cases h
  | some tv =>
    rw [hthr] at h
    cases o with
    | none => cases h
    | some o =>
      dsimp only at h
      cases hfp : findLastPeak (pySliceFrom input o) 10 (some tv.toQ)
          (decide (tv.toQ ≥ 0)) with
      | none => rw [hfp] at h; cases h; simp
      | some pv =>
        obtain ⟨pos, v⟩ := pv
        rw [hfp] at h
        cases h
        simp

/-- C4: the claim fails on `ThresholdTrigger`: on an input with no qualifying
range (e.g. `[0, 0, 0]` with its default parameters) it returns
`xmarks = [None, None]` — a list of null placeholders, not the empty list the
claim (and the convention comment at the top of find_peaks_trigger.py)
require. All other loaded trigger variants do return `None`-free (possibly
empty) lists. -/
theorem claim_C4_code_bug :
    thresholdTriggerProc [0, 0, 0] (some 0) ttDefaultParams = .ok (some [none, none])
    ∧ (some [(none : Option Int), none] ≠ some ([] : List (Option Int)))
    ∧ (∀ (input : List ℚ) (o : Option Int) (p : Params) (xs : List (Option Int)),
        (risingEdgeProc input o p = .ok (some xs)
          ∨ fallingEdgeProc input o p = .ok (some xs)
          ∨ holdoffProc input o p = .ok (some xs)
          ∨ firstPeakProc input o p = .ok (some xs)
          ∨ lastPeakProc input o p = .ok (some xs)) →
        ∀ x ∈ xs, x ≠ none) := by
  refine ⟨by with_unfolding_all rfl, by decide, ?_⟩
  rintro input o p xs (h | h | h | h | h)
  · exact risingEdge_marks_not_none input o p xs h
  · exact fallingEdge_marks_not_none input o p xs h
  · exact holdoff_marks_not_none input o p xs h
  · exact firstPeak_marks_not_none input o p xs h
  · exact lastPeak_marks_not_none input o p xs h

/-- a trigger stage invoked with an empty parameter dict: its `process_data`
raises the missing-parameter `KeyError`. -/
def holdoffStageNoParams : TriggerStage := ⟨[], holdoffProc⟩

/-- a third-party filter stage violating the Filter contract by returning a
result dict without the `data` key — the case the `except KeyError` guard
around `filter_result['data']` (batch_processing.py lines 274-282) handles. -/
def badResultStage : FilterStage := ⟨[], fun _ _ => .ok none⟩

theorem scanStep_nofilters_no_keyError (ts : List TriggerStage) (tr : List ℚ)
    (r : Int × Int) : scanStep [] ts tr r ≠ .error .keyError := by
  unfold scanStep
  simp only [List.isEmpty_nil, if_true]
  cases ts with
  | nil => simp
  | cons t ts' =>
    simp only [List.isEmpty_cons, Bool.false_eq_true, if_false]
    cases hrt : runTriggers (t :: ts') tr with
    | error e =>
      cases e
      · exact absurd hrt (runTriggersGo_no_keyError tr (t :: ts') none (some 0))
      · simp
    | ok xm => simp

/-- C2 counterexample: a moving-average filter stage missing its declared
`window_len` parameter raises a `KeyError` that is NOT caught by the filter
chain (`_run_filters` only guards the `filter_result['data']` lookup), so the
whole batch run aborts — contradicting the claim that no missing-parameter
failure in any chain stage aborts the overall batch run. -/
theorem claim_C2_counterexample :
    batchRun [maStageNoWin] [] [[1, 2, 3]] (0, 0) = .error .keyError := by decide

/-- C2 amended: a missing-parameter `KeyError` raised by a trigger stage is
caught — it only breaks the remaining trigger stages for that trace (keeping
the previous stage's marks) and never escapes the chain, so scanning
continues with the next trace. A missing-parameter `KeyError` raised by a
filter stage's `process_data`, however, propagates out of the filter chain
and aborts the batch run. What the filter chain logs and skips is a stage
whose RESULT lacks the `data` key, leaving the trace data unchanged. -/
theorem claim_C2_amended :
    (∀ (ts : List TriggerStage) (d : List ℚ), runTriggers ts d ≠ .error .keyError)
    ∧ (∀ (ts : List TriggerStage) (traces : List (List ℚ)) (r : Int × Int),
        scanLoop [] ts traces r ≠ .error .keyError)
    ∧ (∀ (st : FilterStage) (rest : List FilterStage) (d : List ℚ)
        (md : Option Bool) (e : PyErr),
        lookupP st.params "modify_data" = none →
        st.proc d st.params = .error e →
        runFiltersGo d (st :: rest) md = .error e)
    ∧ (∀ (st : FilterStage) (rest : List FilterStage) (d : List ℚ)
        (md : Option Bool),
        lookupP st.params "modify_data" = none →
        st.proc d st.params = .ok none →
        runFiltersGo d (st :: rest) md = runFiltersGo d rest md) := by
  refine ⟨?_, ?_, ?_, ?_⟩
  · intro ts d
    exact runTriggersGo_no_keyError d ts none (some 0)
  · intro ts traces r
    induction traces generalizing r with
    | nil => simp [scanLoop]
    | cons tr rest ih =>
      unfold scanLoop
      cases hs : scanStep [] ts tr r with
      | error e =>
        cases e
        · exact absurd hs (scanStep_nofilters_no_keyError ts tr r)
        · simp
      | ok s =>
        dsimp only
        cases hrest : scanLoop [] ts rest s.region with
        | error e =>
          cases e
          · exact absurd hrest (ih s.region)
          · simp
        | ok p => obtain ⟨rows, rfin⟩ := p; simp
  · intro st rest d md e hmd hproc
    unfold runFiltersGo
    rw [hmd, hproc]
  · intro st rest d md hmd hproc
    conv_lhs => rw [runFiltersGo]
    rw [hmd, hproc]

/-- witness for C2 amended: a holdoff trigger with an empty parameter dict
never lets its `KeyError` escape the chain or abort the scan, and the
moving-average filter stage missing `window_len` aborts the filter chain,
while a missing-`data`-result stage is skipped leaving the data unchanged. -/
theorem claim_C2_amended_witness :
    runTriggers [holdoffStageNoParams] [1] ≠ .error .keyError
    ∧ scanLoop [] [holdoffStageNoParams] [[1]] (0, 0) ≠ .error .keyError
    ∧ runFiltersGo [1, 2, 3] [maStageNoWin] none = .error .keyError
    ∧ runFiltersGo [1, 2, 3] [badResultStage] none = runFiltersGo [1, 2, 3] [] none :=
  ⟨claim_C2_amended.1 [holdoffStageNoParams] [1],
   claim_C2_amended.2.1 [holdoffStageNoParams] [[1]] (0, 0),
   claim_C2_amended.2.2.1 maStageNoWin [] [1, 2, 3] none .keyError (by decide) (by decide),
   claim_C2_amended.2.2.2 badResultStage [] [1, 2, 3] none (by decide) rfl⟩

theorem maDisabledModStage_preserves : StagePreservesLength maDisabledModStage := by
  intro d r h
  have h' : movingAverageProc d maDisabledModStage.params = .ok (some r) := h
  have hd : movingAverageProc d maDisabledModStage.params = .ok (some d) := by
    with_unfolding_all rfl
  rw [hd] at h'
  cases h'
  rfl

theorem cutPhase_out_lengths (fs : List FilterStage)
    (hpres : ModifyStagesPreserveLength fs) :
    ∀ (traces : List (List ℚ)) (rows : List (Bool × (Int × Int)))
      (region : Int × Int) (L : Nat) (out : List (List ℚ)),
    cutPhase fs traces rows region L = .ok out → ∀ t ∈ out, t.length = L := by
  intro traces
  induction traces with
  | nil =>
    intro rows region L out h t ht
    cases h
    simp at ht
  | cons trace trs ih =>
    intro rows region L out h t ht
    cases rows with
    | nil =>
      cases h
      simp at ht
    | cons row rws =>
      unfold cutPhase at h
      split_ifs at h with hv
      · cases hrm : runModifyingFilter fs (cutTrace trace (row.2.1 + region.1) L) with
        | error e => rw [hrm] at h; cases h
        | ok cutted =>
          rw [hrm] at h
          dsimp only at h
          cases hcp : cutPhase fs trs rws region L with
          | error e => rw [hcp] at h; cases h
          | ok rest =>
            rw [hcp] at h
            cases h
            rcases List.mem_cons.mp ht with rfl | hmem
            · have h1 := cutTrace_length trace (row.2.1 + region.1) L
              have h2 := runModifyingFilter_length fs _ t hpres hrm
              omega
            · exact ih rws region L rest hcp t hmem
      · exact ih rws region L out h t ht

/-- C6: the slice-and-pad step always yields exactly `new_length` samples
(the cut starting at `anchor1 + region_start` is copied and zero-extended
when it runs past the physical end of the trace), and — since every
MODIFY-FLAGGED filter preserves sample count on its own parameters, as the
repo's IIR `filtfilt` filters (the only ones declaring `modify_data`) do —
every output trace written during the Cutting phase has exactly `new_length`
samples. Analysis-only stages, even length-changing ones such as an enabled
moving average, are unconstrained: `_run_modifying_filter` skips them. -/
theorem claim_C6_cut_length :
    (∀ (trace : List ℚ) (start : Int) (L : Nat),
      (cutTrace trace start L).length = L)
    ∧ (∀ (fs : List FilterStage) (traces : List (List ℚ))
        (rows : List (Bool × (Int × Int))) (region : Int × Int) (L : Nat)
        (out : List (List ℚ)),
        ModifyStagesPreserveLength fs →
        cutPhase fs traces rows region L = .ok out →
        ∀ t ∈ out, t.length = L) := by
  refine ⟨cutTrace_length, ?_⟩
  intro fs traces rows region L out hpres h
  exact cutPhase_out_lengths fs hpres traces rows region L out h

/-- an ENABLED moving-average analysis stage (window 2, no `modify_data`
key): it shortens the buffer during scanning but is skipped by the cut
phase's `_run_modifying_filter`. -/
def maAnalysisStage : FilterStage :=
  ⟨[("enabled", .boolean true), ("window_len", .num 2)], movingAverageProc⟩

/-- witness for C6: the chain holds an enabled LENGTH-CHANGING analysis
moving-average stage plus a disabled modify-flagged one; trace `[1, 2, 3]`
with anchor 2 and region start -1 is cut from start 1 to length 5 (running
past the end, hence zero-padded to `[2, 3, 0, 0, 0]`), and the written
output trace still has exactly 5 samples. -/
theorem claim_C6_witness :
    (cutTrace [1, 2, 3] 1 5).length = 5
    ∧ (∀ t ∈ ([[2, 3, 0, 0, 0]] : List (List ℚ)), t.length = 5) :=
  ⟨claim_C6_cut_length.1 [1, 2, 3] 1 5,
   claim_C6_cut_length.2 [maAnalysisStage, maDisabledModStage] [[1, 2, 3]]
    [(true, (2, 0))] (-1, 0) 5 [[2, 3, 0, 0, 0]]
    (by intro st hst v hv htr
        simp only [List.mem_cons, List.not_mem_nil, or_false] at hst
        rcases hst with rfl | rfl
        · simp [maAnalysisStage, lookupP] at hv
        · exact maDisabledModStage_preserves)
    (by with_unfolding_all rfl)⟩

/-- C10: the whole-trace fallback mutates shared state. (1) `classify`
overwrites `region_around_peak` to `[0, filtered-buffer length]` exactly in
the no-marks-with-modifying-filter branch and leaves it unchanged in every
other branch; (2) scanning a batch threads that shared region trace by
trace — scanning `xs ++ ys` continues `ys` from the region state `xs` left
behind; (3) the batch run's cut geometry and cut starts use the final region
left by the scan, not the user-configured one. -/
theorem claim_C10_region_mutation :
    (∀ (xm : Option (List (Option Int))) (md : Option Bool) (L : Nat)
        (r : Int × Int),
      (classify xm md L r).region =
        if xm = none ∧ md = some true then ((0 : Int), (L : Int)) else r)
    ∧ (∀ (fs : List FilterStage) (ts : List TriggerStage)
        (xs ys : List (List ℚ)) (r : Int × Int),
      scanLoop fs ts (xs ++ ys) r =
        match scanLoop fs ts xs r with
        | .error e => .error e
        | .ok p =>
          match scanLoop fs ts ys p.2 with
          | .error e => .error e
          | .ok q => .ok (p.1 ++ q.1, q.2))
    ∧ (∀ (fs : List FilterStage) (ts : List TriggerStage)
        (traces : List (List ℚ)) (r : Int × Int)
        (rows : List (Bool × (Int × Int))) (rfin : Int × Int),
      scanLoop fs ts traces r = .ok (rows, rfin) →
      batchRun fs ts traces r =
        cutPhase fs traces rows rfin
          (newTraceLengthCode (rows.map Prod.snd) rfin).toNat) := by
  refine ⟨?_, ?_, ?_⟩
  · intro xm md L r
    cases xm with
    | none =>
      unfold classify
      cases md with
      | none => simp
      | some b => cases b <;> simp
    | some xs =>
      unfold classify
      have hne : ¬ ((some xs : Option (List (Option Int))) = none ∧ md = some true) := by
        simp
      rw [if_neg hne]
      rcases xs with _ | ⟨x, _ | ⟨y, _ | ⟨z, rest⟩⟩⟩
      · rfl
      · cases x
        · rfl
        · dsimp only
          split_ifs <;> rfl
      · cases x <;> cases y
        · rfl
        · rfl
        · rfl
        · dsimp only
          split_ifs <;> rfl
      · cases x <;> cases y <;> rfl
  · intro fs ts xs ys r
    induction xs generalizing r with
    | nil =>
      cases h : scanLoop fs ts ys r with
      | error e => simp [scanLoop, h]
      | ok q => simp [scanLoop, h]
    | cons tr xs ih =>
      simp only [List.cons_append]
      rw [scanLoop, scanLoop]
      cases hs : scanStep fs ts tr r with
      | error e => rfl
      | ok s =>
        dsimp only
        rw [ih s.region]
        cases hxs : scanLoop fs ts xs s.region with
        | error e => rfl
        | ok p =>
          dsimp only
          cases hys : scanLoop fs ts ys p.2 with
          | error e => rfl
          | ok q => rfl
  · intro fs ts traces r rows rfin h
    unfold batchRun
    rw [h]

/-- witness for C10: the fallback branch rewrites the region `(-5, 2)` to
`(0, 3)`; scanning `[[1]] ++ [[2]]` equals scanning `[[1]]` then `[[2]]`
from the threaded region; and a one-trace batch run equals its cut phase fed
with the scan's final region. -/
theorem claim_C10_witness :
    (classify none (some true) 3 (-5, 2)).region = (0, 3)
    ∧ scanLoop [] [] ([[1]] ++ [[2]]) (0, 0) =
        (match scanLoop [] [] [[1]] (0, 0) with
         | .error e => .error e
         | .ok p =>
           match scanLoop [] [] [[2]] p.2 with
           | .error e => .error e
           | .ok q => .ok (p.1 ++ q.1, q.2))
    ∧ batchRun [] [] [[1, 2]] (0, 0) =
        cutPhase [] [[1, 2]] [(false, (0, 0))] (0, 0)
          (newTraceLengthCode ([(false, (0, 0))].map Prod.snd) (0, 0)).toNat := by
  refine ⟨?_, ?_, ?_⟩
  · have h := claim_C10_region_mutation.1 none (some true) 3 (-5, 2)
    simpa using h
  · exact claim_C10_region_mutation.2.1 [] [] [[1]] [[2]] (0, 0)
  · exact claim_C10_region_mutation.2.2 [] [] [[1, 2]] (0, 0) [(false, (0, 0))]
      (0, 0) (by decide)

/-! Helper lemmas for the npy write-capacity claims. -/

theorem list_set_append_length {α : Type _} (xs ys : List α) (v : α) :
    (xs ++ ys).set xs.length v = xs ++ ys.set 0 v := by
  induction xs with
  | nil => rfl
  | cons a as ih => simp [ih]

theorem addTrace_saturated (s : NumpyArraysState) (c : String × List ℚ)
    (h : s.numberOfTraces ≤ s.recordsWritten) : addTrace s c = s := by
  unfold addTrace
  rw [if_pos (by omega)]

theorem addTrace_step (s : NumpyArraysState) (c : String × List ℚ)
    (h : s.recordsWritten < s.numberOfTraces) :
    addTrace s c =
      { s with
        channels := setChannelRow s.channels c.1 s.recordsWritten c.2
        recordsWritten := s.recordsWritten + 1 } := by
  unfold addTrace
  rw [if_neg (by omega)]

theorem applyCalls_cons (s : NumpyArraysState) (c : String × List ℚ)
    (cs : List (String × List ℚ)) :
    applyCalls s (c :: cs) = applyCalls (addTrace s c) cs := by
  unfold applyCalls
  rw [List.foldl_cons]

theorem applyCalls_saturated (s : NumpyArraysState)
    (calls : List (String × List ℚ)) (h : s.numberOfTraces ≤ s.recordsWritten) :
    applyCalls s calls = s := by
  induction calls with
  | nil => rfl
  | cons c cs ih =>
    rw [applyCalls_cons, addTrace_saturated s c h]
    exact ih

theorem applyCalls_records (calls : List (String × List ℚ)) :
    ∀ (s : NumpyArraysState), s.recordsWritten ≤ s.numberOfTraces →
    (applyCalls s calls).recordsWritten =
      min (s.recordsWritten + calls.length) s.numberOfTraces
    ∧ (applyCalls s calls).numberOfTraces = s.numberOfTraces := by
  induction calls with
  | nil =>
    intro s h
    refine ⟨?_, rfl⟩
    show s.recordsWritten =
      min (s.recordsWritten + ([] : List (String × List ℚ)).length) s.numberOfTraces
    simp only [List.length_nil, Nat.add_zero]
    omega
  | cons c cs ih =>
    intro s h
    rw [applyCalls_cons]
    by_cases hfull : s.numberOfTraces ≤ s.recordsWritten
    · rw [addTrace_saturated s c hfull]
      obtain ⟨h1, h2⟩ := ih s h
      refine ⟨?_, h2⟩
      rw [h1]
      simp only [List.length_cons]
      omega
    · rw [addTrace_step s c (by omega)]
      obtain ⟨h1, h2⟩ := ih
        { s with
          channels := setChannelRow s.channels c.1 s.recordsWritten c.2
          recordsWritten := s.recordsWritten + 1 } (by simp; omega)
      refine ⟨?_, ?_⟩
      · rw [h1]
        show min (s.recordsWritten + 1 + cs.length) s.numberOfTraces =
          min (s.recordsWritten + (c :: cs).length) s.numberOfTraces
        simp only [List.length_cons]
        omega
      · exact h2

theorem list_set_append_at {α : Type _} (xs ys : List α) (i : Nat) (v : α)
    (h : xs.length = i) : (xs ++ ys).set i v = xs ++ ys.set 0 v := by
  subst h
  exact list_set_append_length xs ys v

theorem applyCalls_single_channel (ch : String) (rows : List (List ℚ)) :
    ∀ (n : Nat) (acc : List (List ℚ)), acc.length + rows.length ≤ n →
    applyCalls
        ⟨n, acc.length, [(ch, acc.map some ++ List.replicate (n - acc.length) none)]⟩
        (rows.map (fun row => (ch, row)))
      = ⟨n, acc.length + rows.length,
         [(ch, (acc ++ rows).map some ++
            List.replicate (n - acc.length - rows.length) none)]⟩ := by
  induction rows with
  | nil =>
    intro n acc h
    simp [applyCalls]
  | cons row rows ih =>
    intro n acc h
    have hlt : acc.length < n := by
      simp only [List.length_cons] at h
      omega
    simp only [List.map_cons]
    rw [applyCalls_cons]
    rw [addTrace_step _ _ (by exact hlt)]
    have hrep : List.replicate (n - acc.length) (none : Option (List ℚ)) =
        none :: List.replicate (n - acc.length - 1) none := by
      have he : n - acc.length = (n - acc.length - 1) + 1 := by omega
      conv_lhs => rw [he]
      rw [List.replicate_succ]
    have hchan : setChannelRow
        [(ch, acc.map some ++ List.replicate (n - acc.length) none)] ch
        acc.length row
        = [(ch, (acc ++ [row]).map some ++
            List.replicate (n - (acc.length + 1)) none)] := by
      have h0 : setChannelRow
          [(ch, acc.map some ++ List.replicate (n - acc.length) none)] ch
          acc.length row
          = [(ch, (acc.map some ++ List.replicate (n - acc.length) none).set
              acc.length (some row))] := by
        simp [setChannelRow]
      rw [h0, list_set_append_at (acc.map some) _ acc.length (some row) (by simp),
        hrep]
      have he2 : n - (acc.length + 1) = n - acc.length - 1 := by omega
      rw [he2]
      simp [List.map_append]
    have hstate : ({ (⟨n, acc.length,
          [(ch, acc.map some ++ List.replicate (n - acc.length) none)]⟩ : NumpyArraysState) with
        channels := setChannelRow
          [(ch, acc.map some ++ List.replicate (n - acc.length) none)] ch acc.length row
        recordsWritten := acc.length + 1 } : NumpyArraysState)
        = ⟨n, (acc ++ [row]).length,
           [(ch, (acc ++ [row]).map some ++
              List.replicate (n - (acc ++ [row]).length) none)]⟩ := by
      rw [hchan]
      simp
    rw [hstate, ih n (acc ++ [row]) (by simp only [List.length_append,
      List.length_cons, List.length_nil] at h ⊢; omega)]
    have hn1 : (acc ++ [row]).length + rows.length = acc.length + (row :: rows).length := by
      simp only [List.length_append, List.length_cons, List.length_nil]
      omega
    have hn2 : n - (acc ++ [row]).length - rows.length =
        n - acc.length - (row :: rows).length := by
      simp only [List.length_append, List.length_cons, List.length_nil]
      omega
    have hn3 : (acc ++ [row]) ++ rows = acc ++ (row :: rows) := by
      simp
    rw [hn1, hn2, hn3]

theorem applyCalls_append (s : NumpyArraysState) (a b : List (String × List ℚ)) :
    applyCalls s (a ++ b) = applyCalls (applyCalls s a) b := by
  unfold applyCalls
  rw [List.foldl_append]

/-- sequence of `addTrace`/`_addTraceRaw` calls on one D15 `DataObject`. -/
def applyRawRows (o : DataObjectState) (rows : List (List ℚ)) : DataObjectState :=
  rows.foldl addTraceRaw o

/-- C7 counterexample: a D15 channel registered for 3 traces with the default
DIRECTWRITE save method accepts a 4th `add_trace`: `_addTraceRaw` has no
capacity check on the direct-write path, so the file ends up with all 4 rows
instead of dropping the excess trace as a no-op. -/
theorem claim_C7_counterexample :
    (applyRawRows (prepareForRecord 3 1 .directwrite) [[1], [2], [3], [4]]).fileRows
      = [[1], [2], [3], [4]]
    ∧ ([[1], [2], [3], [4]] : List (List ℚ)) ≠ [[1], [2], [3]] := by
  exact ⟨by with_unfolding_all rfl, by decide⟩

/-- C7 amended: in the npy backend the claim holds — for a channel registered
to hold `n` traces that received all `n` writes, every further `add_trace` is
a no-op (the whole state is unchanged, hence no exception), the channel holds
exactly the first `n` supplied rows, and `get_number_of_traces` still reports
`n`. In the D15 backend the excess trace is dropped only on the MEMMAP path;
the default DIRECTWRITE path appends it to the file unchecked. -/
theorem claim_C7_amended :
    (∀ (n : Nat) (ch : String) (rows extra : List (List ℚ)), rows.length = n →
      applyCalls (registerDataFile (freshNpy n) ch)
          ((rows ++ extra).map (fun row => (ch, row)))
        = applyCalls (registerDataFile (freshNpy n) ch)
            (rows.map (fun row => (ch, row)))
      ∧ getChannel (applyCalls (registerDataFile (freshNpy n) ch)
            (rows.map (fun row => (ch, row)))) ch = rows.map some
      ∧ (applyCalls (registerDataFile (freshNpy n) ch)
            ((rows ++ extra).map (fun row => (ch, row)))).numberOfTraces = n)
    ∧ (∀ (o : DataObjectState) (row : List ℚ), o.saveMethod = .memmap →
        o.nrTraces ≤ o.recordsWritten → addTraceRaw o row = o) := by
  constructor
  · intro n ch rows extra hlen
    subst hlen
    have hmain : applyCalls (registerDataFile (freshNpy rows.length) ch)
        (rows.map (fun row => (ch, row)))
        = ⟨rows.length, rows.length, [(ch, rows.map some)]⟩ := by
      have h := applyCalls_single_channel ch rows rows.length [] (by simp)
      simpa [registerDataFile, freshNpy] using h
    refine ⟨?_, ?_, ?_⟩
    · rw [List.map_append, applyCalls_append, hmain]
      exact applyCalls_saturated _ _ (le_refl _)
    · rw [hmain]
      simp [getChannel]
    · rw [List.map_append, applyCalls_append, hmain,
        applyCalls_saturated _ _ (le_refl _)]
  · intro o row hsm hfull
    unfold addTraceRaw
    rw [hsm]
    dsimp only
    by_cases h1 : row.length ≠ o.length
    · rw [if_pos h1]
    · rw [if_neg h1, if_pos (show o.recordsWritten ≥ o.nrTraces by omega)]

/-- witness for C7 amended: 3 rows fill an npy channel registered for 3; a
4th call changes nothing, the channel holds exactly the 3 rows, and the trace
count still reads 3; and a full MEMMAP D15 object drops a further trace. -/
theorem claim_C7_amended_witness :
    (applyCalls (registerDataFile (freshNpy 3) "em")
        ((([[1], [2], [3]] : List (List ℚ)) ++ [[4]]).map (fun row => ("em", row)))
      = applyCalls (registerDataFile (freshNpy 3) "em")
          (([[1], [2], [3]] : List (List ℚ)).map (fun row => ("em", row)))
    ∧ getChannel (applyCalls (registerDataFile (freshNpy 3) "em")
          (([[1], [2], [3]] : List (List ℚ)).map (fun row => ("em", row)))) "em"
        = ([[1], [2], [3]] : List (List ℚ)).map some
    ∧ (applyCalls (registerDataFile (freshNpy 3) "em")
          ((([[1], [2], [3]] : List (List ℚ)) ++ [[4]]).map
            (fun row => ("em", row)))).numberOfTraces = 3)
    ∧ addTraceRaw (prepareForRecord 0 1 .memmap) [1] = prepareForRecord 0 1 .memmap :=
  ⟨claim_C7_amended.1 3 "em" [[1], [2], [3]] [[4]] rfl,
   claim_C7_amended.2 (prepareForRecord 0 1 .memmap) [1] rfl (by decide)⟩

/-- C9: the npy write-capacity check uses a single `_records_written` counter
shared by all channels: starting from a fresh dataset, after any `k` prior
`add_trace` calls — to whatever channels — the counter reads `min k n`, the
declared count is unchanged, and the next (k-th, 0-indexed) call is stored
iff `k < n`; so interleaved writes to several channels exhaust the budget
after `n` calls in total, not `n` per channel. -/
theorem claim_C9_shared_counter (s₀ : NumpyArraysState)
    (calls : List (String × List ℚ)) (k : Nat)
    (h0 : s₀.recordsWritten = 0) (hk : k ≤ calls.length) :
    (applyCalls s₀ (calls.take k)).recordsWritten = min k s₀.numberOfTraces
    ∧ (applyCalls s₀ (calls.take k)).numberOfTraces = s₀.numberOfTraces
    ∧ (addTraceStores (applyCalls s₀ (calls.take k)) ↔ k < s₀.numberOfTraces) := by
  obtain ⟨h1, h2⟩ := applyCalls_records (calls.take k) s₀ (by omega)
  have hlen : (calls.take k).length = k := by
    rw [List.length_take]
    omega
  rw [hlen] at h1
  refine ⟨by rw [h1]; omega, h2, ?_⟩
  unfold addTraceStores
  rw [h1, h2]
  omega

/-- an npy dataset declared for 2 traces with channels `em` and `power`. -/
def npyTwoChan : NumpyArraysState :=
  registerDataFile (registerDataFile (freshNpy 2) "em") "power"

/-- witness for C9: with budget 2 and the interleaved call sequence
em, power, em, power, after 2 calls the shared counter is full and the 3rd
call (to `em`, which holds only one row so far) is already dropped. -/
theorem claim_C9_witness :
    (applyCalls npyTwoChan
        ([("em", [1]), ("power", [1]), ("em", [2]), ("power", [2])].take 2)).recordsWritten
      = min 2 npyTwoChan.numberOfTraces
    ∧ (applyCalls npyTwoChan
        ([("em", [1]), ("power", [1]), ("em", [2]), ("power", [2])].take 2)).numberOfTraces
      = npyTwoChan.numberOfTraces
    ∧ (addTraceStores (applyCalls npyTwoChan
        ([("em", [1]), ("power", [1]), ("em", [2]), ("power", [2])].take 2))
      ↔ 2 < npyTwoChan.numberOfTraces) :=
  claim_C9_shared_counter npyTwoChan
    [("em", [1]), ("power", [1]), ("em", [2]), ("power", [2])] 2 rfl (by decide)
